import Mathlib

/-
Verification of the RADIUS library (Go sources: attribute.go, server.go,
types.go) against its specification.

Modelling conventions: Go byte slices are `List Nat` whose entries are byte
values; Go's narrowing conversions insert an explicit `% 2^w`; fallible Go
functions return `Except`; a Go runtime panic (a failed slice bounds check)
is a distinguished result constructor, never an error return.
-/

namespace Radius

/-- Attribute is a wire encoded RADIUS attribute (attribute.go line 17): a
byte slice, modelled as a list of byte values. -/
abbrev Attribute := List Nat

/-- EapMessage (attribute.go lines 19-24): Code, Identifier, Type and Data of
a decoded EAP sub-message. EapCode and EapType are one-byte numeric codes. -/
structure EapMessage where
  code : Nat
  identifier : Nat
  type : Nat
  data : Attribute
deriving DecidableEq

/-- binary.BigEndian.Uint16 over two byte values. -/
def uint16BE (hi lo : Nat) : Nat := hi * 256 + lo

/-- Result of running a Go function that can also hit a runtime failure: it
returns an error, returns a value, or panics (a failed slice bounds check). -/
inductive EapResult where
  | err : String → EapResult
  | panicked : String → EapResult
  | ok : EapMessage → EapResult
deriving DecidableEq

/-- Attribute.EAPMessage (attribute.go lines 158-173). After the two length
checks the code evaluates the Go slice expression a[5:length]; that
expression panics at runtime unless 5 ≤ length ≤ len(a), so the case
length < 5 ≤ len(a) is the `panicked` branch, not an error return. -/
def Attribute.EAPMessage (a : Attribute) : EapResult :=
  if a.length < 5 then .err "[EapDecode] protocol error input too small 1"
  else
    let length := uint16BE (a.getD 2 0) (a.getD 3 0)
    if a.length < length then .err "[EapDecode] protocol error input too small 2"
    else if length < 5 then .panicked "slice bounds out of range"
    else .ok { code := a.getD 0 0, identifier := a.getD 1 0,
               type := a.getD 4 0, data := (a.drop 5).take (length - 5) }

/-- NewEAPMessage (attribute.go lines 176-184): writes Code, Identifier, the
big-endian 2-byte value uint16(len(Data)+5) (the Go conversion narrows
modulo 2^16), Type, then Data. -/
def NewEAPMessage (code identifier etype : Nat) (data : Attribute) : Attribute :=
  let v := (data.length + 5) % 65536
  code :: identifier :: (v / 256) :: (v % 256) :: etype :: data

/-- NewString (attribute.go lines 33-38); a Go string is a byte sequence, so
it is modelled like a byte slice. -/
def NewString (s : List Nat) : Except String Attribute :=
  if 253 < s.length then .error "string too long" else .ok s

/-- NewBytes (attribute.go lines 49-56); the Go code copies the slice, which
yields an equal byte sequence. -/
def NewBytes (b : List Nat) : Except String Attribute :=
  if 253 < b.length then .error "value too long" else .ok b

/-- Big-endian value of a byte string (most significant byte first). -/
def fromBE32 (bs : List Nat) : Nat := bs.foldl (fun acc x => acc * 256 + x) 0

/-- NewTime (attribute.go lines 101-109). t.Unix() is an int64 count of
seconds, modelled as the integer argument; the code rejects values above
math.MaxUint32 = 2^32-1 and otherwise writes uint32(t.Unix()) — the Go
conversion from int64 to uint32 keeps the value modulo 2^32 — as 4
big-endian bytes via binary.BigEndian.PutUint32. -/
def NewTime (unix : Int) : Except String (List Nat) :=
  if (2 ^ 32 - 1 : Int) < unix then .error "time out of range"
  else
    let v := (unix % (2 ^ 32 : Int)).toNat
    .ok [v / 2 ^ 24 % 256, v / 2 ^ 16 % 256, v / 2 ^ 8 % 256, v % 256]

/-- Modelled from the spec: one RADIUS attribute of the attribute container
(spec section 3), a (Type, Value) pair; the attribute container sources are
not under src/, only attribute.go's Attribute value helpers are. -/
structure GoAttr where
  type : Nat
  value : List Nat
deriving DecidableEq

/-- Modelled from the spec (section 4.1): encoding of an attribute sequence
concatenates, in order, records Type(1) Length(1, = 2+len(Value)) Value. -/
def encodeAttrs : List GoAttr → List Nat
  | [] => []
  | a :: rest => a.type :: (2 + a.value.length) :: (a.value ++ encodeAttrs rest)

/-- Modelled from the spec (section 4.1): parsing consumes successive
2-byte-header TLV records until the input is exhausted; a truncated header,
a declared length below 2, or a declared length past the remaining input is
a MalformedAttribute error that fails the whole parse. The first argument
is structural-recursion fuel; every accepted record consumes at least two
input bytes, so fuel equal to the input length (as supplied by parseAttrs)
can never run out. -/
def parseAttrsGo : Nat → List Nat → Except String (List GoAttr)
  | _, [] => .ok []
  | 0, _ :: _ => .error "MalformedAttribute"
  | _ + 1, [_] => .error "MalformedAttribute"
  | fuel + 1, t :: l :: rest =>
    if l < 2 then .error "MalformedAttribute"
    else if rest.length < l - 2 then .error "MalformedAttribute"
    else
      match parseAttrsGo fuel (rest.drop (l - 2)) with
      | .error e => .error e
      | .ok attrs => .ok (⟨t, rest.take (l - 2)⟩ :: attrs)

/-- Modelled from the spec (section 4.1): the attribute container parser,
with the fuel of parseAttrsGo fixed to the always-sufficient input length. -/
def parseAttrs (bs : List Nat) : Except String (List GoAttr) :=
  parseAttrsGo bs.length bs

/-- Modelled from the spec (section 3): a Packet holds Code, Identifier, the
16-byte Authenticator, the ordered attribute sequence, and the shared
Secret; the packet codec sources are not under src/. -/
structure Packet where
  code : Nat
  identifier : Nat
  authenticator : List Nat
  attributes : List GoAttr
  secret : List Nat
deriving DecidableEq

/-- Modelled from the spec (section 3): a valid Packet has one-byte Code and
Identifier, a non-empty secret, attribute values of at most 253 bytes with
one-byte types, and a total encoded size of at most 4096. -/
def PacketValid (p : Packet) : Prop :=
  p.code < 256 ∧ p.identifier < 256 ∧ p.secret ≠ [] ∧
  (∀ a ∈ p.attributes, a.type < 256 ∧ a.value.length ≤ 253) ∧
  20 + (encodeAttrs p.attributes).length ≤ 4096

/-- Modelled from the spec (sections 4.2, 4.3): Encode(Packet, reqAuth)
serializes Code, Identifier, the big-endian total length, the Response
Authenticator — a 16-byte digest of Code, Identifier, Length, the request's
Authenticator, the encoded attributes and the Secret — then the encoded
attributes. It fails if the Secret is empty or the total size exceeds the
4096-byte datagram ceiling. The digest function is a parameter because the
hash primitive is outside the modelled scope; only its 16-byte output
length matters to the codec. -/
def Packet.Encode (hash : List Nat → List Nat) (p : Packet)
    (reqAuth : List Nat) : Except String (List Nat) :=
  if p.secret.length = 0 then .error "empty secret"
  else
    let ab := encodeAttrs p.attributes
    let total := 20 + ab.length
    if 4096 < total then .error "EncodeOverflow"
    else
      let auth := hash ([p.code, p.identifier, total / 256 % 256, total % 256]
        ++ reqAuth ++ ab ++ p.secret)
      .ok ([p.code, p.identifier, total / 256 % 256, total % 256] ++ auth ++ ab)

/-- Modelled from the spec (section 4.3): Parse(bytes, secret) requires
length at least 20, requires the declared big-endian length at offsets 2-3
to equal the input length exactly, reads Code, Identifier and the 16-byte
Authenticator, parses the remainder as attributes, and attaches the
secret. -/
def Parse (bytes secret : List Nat) : Except String Packet :=
  if bytes.length < 20 then .error "MalformedPacket"
  else if uint16BE (bytes.getD 2 0) (bytes.getD 3 0) ≠ bytes.length then
    .error "MalformedPacket"
  else
    match parseAttrs (bytes.drop 20) with
    | .error e => .error e
    | .ok attrs =>
      .ok { code := bytes.getD 0 0, identifier := bytes.getD 1 0,
            authenticator := (bytes.drop 4).take 16, attributes := attrs,
            secret := secret }

/-- Remote transport address, opaque to everything modelled here. -/
abbrev Addr := Nat

/-- Outcome of one per-datagram task: either the task returned before the
handler ran (so nothing was written back to the sender: every write in the
task bodies happens in or after the handler call), or the registered
handler was invoked on the parsed packet. -/
inductive TaskOutcome where
  | dropped
  | handled : Packet → TaskOutcome
deriving DecidableEq

/-- Per-datagram task body of the first ListenAndServe draft (server.go
lines 69-87): a secret-lookup error drops the datagram, a parse error drops
it, and otherwise the handler (Service.RadiusHandle) runs on the parsed
packet and its response is sent back. There is no empty-secret guard in
this draft. The src parameter is the SecretSource and parse stands for the
packet codec's Parse. -/
def handleDatagramV1 (src : Addr → Except Unit (List Nat))
    (parse : List Nat → List Nat → Except String Packet)
    (addr : Addr) (p : List Nat) : TaskOutcome :=
  match src addr with
  | .error _ => .dropped
  | .ok secret =>
    match parse p secret with
    | .error _ => .dropped
    | .ok pac => .handled pac

/-- Per-datagram task body of the later ListenAndServe drafts (server.go
lines 218-248 and 402-432): like the first draft but with the empty-secret
guard — a secret of length 0 drops the datagram before parsing; otherwise
the handler (Handler.ServeRADIUS) is invoked on the parsed packet. -/
def handleDatagram (src : Addr → Except Unit (List Nat))
    (parse : List Nat → List Nat → Except String Packet)
    (addr : Addr) (p : List Nat) : TaskOutcome :=
  match src addr with
  | .error _ => .dropped
  | .ok secret =>
    if secret.length = 0 then .dropped
    else
      match parse p secret with
      | .error _ => .dropped
      | .ok packet => .handled packet

/-- One iteration's input to the accept loop of ListenAndServe (server.go
lines 200-215): either the done channel is found closed at the top of the
loop, or conn.ReadFrom yields a timeout error, a non-timeout error
(identified here by a numeric code), or a datagram with its sender. -/
inductive ReadEvent where
  | stopSignal
  | timeout
  | fatal : Nat → ReadEvent
  | datagram : Addr → List Nat → ReadEvent

/-- Terminal result of the accept loop: a nil return after the stop signal,
a non-timeout read error returned from ListenAndServe, or still running
(the supplied event trace ran out). -/
inductive LoopResult where
  | normal
  | failed : Nat → LoopResult
  | running
deriving DecidableEq

/-- Accept loop of ListenAndServe (server.go lines 200-249), run over a
trace of read events: a stop signal returns nil; a timeout error continues
the loop; any other read error is returned as ListenAndServe's result; a
datagram spawns a per-datagram task — recorded in the second component —
and the loop continues immediately. -/
def acceptLoop (src : Addr → Except Unit (List Nat))
    (parse : List Nat → List Nat → Except String Packet) :
    List ReadEvent → LoopResult × List TaskOutcome
  | [] => (.running, [])
  | .stopSignal :: _ => (.normal, [])
  | .timeout :: rest => acceptLoop src parse rest
  | .fatal e :: _ => (.failed e, [])
  | .datagram addr p :: rest =>
    ((acceptLoop src parse rest).1,
      handleDatagram src parse addr p :: (acceptLoop src parse rest).2)

/-! Helper lemmas. -/

/-- Decoding a five-byte header followed by data whose embedded length is
consistent succeeds with the header fields and the data. -/
theorem eap_decode_cons (c i hi lo t : Nat) (d : List Nat)
    (h : uint16BE hi lo = d.length + 5) :
    Attribute.EAPMessage (c :: i :: hi :: lo :: t :: d) =
      .ok ⟨c, i, t, d⟩ := by
  have hlen : (c :: i :: hi :: lo :: t :: d).length = d.length + 5 := by
    simp only [List.length_cons]
  simp only [Attribute.EAPMessage]
  rw [show (c :: i :: hi :: lo :: t :: d).getD 2 0 = hi from rfl,
    show (c :: i :: hi :: lo :: t :: d).getD 3 0 = lo from rfl,
    show (c :: i :: hi :: lo :: t :: d).getD 0 0 = c from rfl,
    show (c :: i :: hi :: lo :: t :: d).getD 1 0 = i from rfl,
    show (c :: i :: hi :: lo :: t :: d).getD 4 0 = t from rfl,
    show (c :: i :: hi :: lo :: t :: d).drop 5 = d from rfl,
    h, hlen, if_neg (by omega : ¬(d.length + 5 < 5)),
    if_neg (by omega : ¬(d.length + 5 < d.length + 5)),
    if_neg (by omega : ¬(d.length + 5 < 5))]
  rw [show d.length + 5 - 5 = d.length from by omega, List.take_length]

/-- Bytes 2-3 of a NewEAPMessage encoding always hold, big-endian, the
value (len(Data) + 5) mod 2^16. -/
theorem eap_encode_u16 (c i t : Nat) (d : List Nat) :
    uint16BE ((NewEAPMessage c i t d).getD 2 0)
      ((NewEAPMessage c i t d).getD 3 0) = (d.length + 5) % 65536 := by
  show (d.length + 5) % 65536 / 256 * 256 + (d.length + 5) % 65536 % 256 =
    (d.length + 5) % 65536
  omega

/-- parseAttrsGo does not depend on the fuel as long as the fuel is at
least the input length (every accepted record consumes at least two input
bytes and one unit of fuel). -/
theorem parseAttrsGo_fuel (f : Nat) : ∀ (g : Nat) (bs : List Nat),
    bs.length ≤ f → bs.length ≤ g → parseAttrsGo f bs = parseAttrsGo g bs := by
  induction f with
  | zero =>
    intro g bs hf hg
    have hbs : bs = [] := List.length_eq_zero.mp (Nat.le_zero.mp hf)
    subst hbs
    cases g <;> rfl
  | succ f ih =>
    intro g bs hf hg
    cases bs with
    | nil => cases g <;> rfl
    | cons t rest1 =>
      cases g with
      | zero => simp at hg
      | succ g =>
        cases rest1 with
        | nil => rfl
        | cons l rest =>
          simp only [parseAttrsGo]
          split_ifs with h1 h2
          · rfl
          · rfl
          · rw [ih g (rest.drop (l - 2))
              (by simp only [List.length_drop]; simp at hf; omega)
              (by simp only [List.length_drop]; simp at hg; omega)]

/-- Parsing an encoded attribute sequence with sufficient fuel returns the
sequence. -/
theorem parseAttrsGo_encodeAttrs (attrs : List GoAttr) : ∀ (f : Nat),
    (encodeAttrs attrs).length ≤ f →
    parseAttrsGo f (encodeAttrs attrs) = .ok attrs := by
  induction attrs with
  | nil => intro f hf; cases f <;> rfl
  | cons a rest ih =>
    intro f hf
    obtain ⟨f, rfl⟩ : ∃ g, f = g + 1 := by
      cases f
      · simp [encodeAttrs] at hf
      · exact ⟨_, rfl⟩
    show parseAttrsGo (f + 1)
      (a.type :: (2 + a.value.length) :: (a.value ++ encodeAttrs rest)) = _
    simp only [parseAttrsGo]
    rw [if_neg (by omega),
      if_neg (by simp only [List.length_append]; omega),
      show 2 + a.value.length - 2 = a.value.length from by omega,
      List.drop_left, List.take_left,
      ih f (by simp [encodeAttrs, List.length_append] at hf ⊢; omega)]

/-- Parsing an encoded attribute sequence returns the sequence, in order. -/
theorem parseAttrs_encodeAttrs (attrs : List GoAttr) :
    parseAttrs (encodeAttrs attrs) = .ok attrs :=
  parseAttrsGo_encodeAttrs attrs _ Nat.le.refl

/-- Parsing a well-formed header followed by a 16-byte authenticator and an
attribute body recovers the header fields and the parsed attributes. -/
theorem parse_header {c i hi lo : Nat} {auth ab secret : List Nat}
    {attrs : List GoAttr} (hauth : auth.length = 16)
    (hu : uint16BE hi lo = 20 + ab.length)
    (hab : parseAttrs ab = .ok attrs) :
    Parse (c :: i :: hi :: lo :: (auth ++ ab)) secret =
      .ok ⟨c, i, auth, attrs, secret⟩ := by
  have h20 : (c :: i :: hi :: lo :: (auth ++ ab)).length = 20 + ab.length := by
    simp only [List.length_cons, List.length_append, hauth]
    omega
  unfold Parse
  rw [show (c :: i :: hi :: lo :: (auth ++ ab)).getD 2 0 = hi from rfl,
    show (c :: i :: hi :: lo :: (auth ++ ab)).getD 3 0 = lo from rfl,
    show (c :: i :: hi :: lo :: (auth ++ ab)).getD 0 0 = c from rfl,
    show (c :: i :: hi :: lo :: (auth ++ ab)).getD 1 0 = i from rfl,
    h20, hu, if_neg (by omega), if_neg (by omega),
    show (c :: i :: hi :: lo :: (auth ++ ab)).drop 20 = (auth ++ ab).drop 16
      from rfl,
    show (c :: i :: hi :: lo :: (auth ++ ab)).drop 4 = auth ++ ab from rfl,
    ← hauth, List.drop_left, List.take_left, hab]

/-- The terminal result of the accept loop does not depend on the
secret-lookup or parse functions used by the per-datagram tasks. -/
theorem acceptLoop_result_independent
    (srcA srcB : Addr → Except Unit (List Nat))
    (parseA parseB : List Nat → List Nat → Except String Packet)
    (evs : List ReadEvent) :
    (acceptLoop srcA parseA evs).1 = (acceptLoop srcB parseB evs).1 := by
  induction evs with
  | nil => rfl
  | cons ev rest ih => cases ev <;> simp only [acceptLoop] <;> exact ih

/-! Theorems for the claims. -/

/-- C1: the claim says Attribute.EAPMessage is total and never panics, in
particular on inputs of at least 5 bytes whose embedded 2-byte length field
is less than 5. The code violates this: on the 5-byte input [1,0,0,0,1]
(embedded length 0) the Go slice expression a[5:0] fails its bounds check
and panics. -/
theorem eap_decode_panics_on_short_embedded_length :
    Attribute.EAPMessage [1, 0, 0, 0, 1] =
      .panicked "slice bounds out of range" := by rfl

/-- C2 (counterexample): at the 5-byte input [1,2,0,4,9] neither stated
error condition holds — the input is not shorter than 5 bytes and the
embedded length 4 does not exceed the input length — yet the decoder
panics instead of returning an EapMessage, so the claim's "in every other
case it returns an EapMessage" is false. -/
theorem eap_decode_not_total_at_embedded_four :
    Attribute.EAPMessage [1, 2, 0, 4, 9] = .panicked "slice bounds out of range" ∧
    ¬(([1, 2, 0, 4, 9] : List Nat).length < 5 ∨
      ([1, 2, 0, 4, 9] : List Nat).length <
        uint16BE (([1, 2, 0, 4, 9] : List Nat).getD 2 0)
          (([1, 2, 0, 4, 9] : List Nat).getD 3 0)) := by
  exact ⟨rfl, by decide⟩

/-- C2 (amended): Attribute.EAPMessage returns an error if and only if its
input is shorter than 5 bytes or the embedded 2-byte big-endian length at
offsets 2-3 exceeds the input's length; it panics exactly when neither
holds but the embedded length is below 5; and in every remaining case it
returns an EapMessage with Code = byte 0, Identifier = byte 1, Type =
byte 4, and Data = the bytes from offset 5 up to the embedded length. -/
theorem eap_decode_characterization (a : Attribute) :
    ((∃ e, Attribute.EAPMessage a = .err e) ↔
      (a.length < 5 ∨ a.length < uint16BE (a.getD 2 0) (a.getD 3 0))) ∧
    ((∃ s, Attribute.EAPMessage a = .panicked s) ↔
      (5 ≤ a.length ∧ uint16BE (a.getD 2 0) (a.getD 3 0) ≤ a.length ∧
        uint16BE (a.getD 2 0) (a.getD 3 0) < 5)) ∧
    (5 ≤ a.length → uint16BE (a.getD 2 0) (a.getD 3 0) ≤ a.length →
      5 ≤ uint16BE (a.getD 2 0) (a.getD 3 0) →
      Attribute.EAPMessage a =
        .ok ⟨a.getD 0 0, a.getD 1 0, a.getD 4 0,
          (a.drop 5).take (uint16BE (a.getD 2 0) (a.getD 3 0) - 5)⟩) := by
  simp only [Attribute.EAPMessage]
  split_ifs with h1 h2 h3 <;> refine ⟨?_, ?_, ?_⟩ <;> simp_all

/-- C2 (witness): applying the characterization at the concrete well-formed
input [1,1,0,6,1,9]. -/
theorem eap_decode_characterization_witness :
    Attribute.EAPMessage [1, 1, 0, 6, 1, 9] = .ok ⟨1, 1, 1, [9]⟩ :=
  (eap_decode_characterization [1, 1, 0, 6, 1, 9]).2.2 (by decide) (by decide)
    (by decide)

/-- C7 (counterexample): for Data of length 65531 the embedded 2-byte
length field of NewEAPMessage does not hold the big-endian value
5 + len(Data) = 65536: the Go uint16 conversion wraps it to 0. -/
theorem eap_encode_length_wraps :
    uint16BE ((NewEAPMessage 1 2 3 (List.replicate 65531 0)).getD 2 0)
      ((NewEAPMessage 1 2 3 (List.replicate 65531 0)).getD 3 0) ≠
    5 + (List.replicate 65531 (0 : Nat)).length := by
  rw [eap_encode_u16, List.length_replicate]
  decide

/-- C7 (amended): NewEAPMessage returns a byte string of length exactly
5+len(Data) whose byte 0 is Code, byte 1 is Identifier, bytes 2-3 hold the
big-endian value (5+len(Data)) mod 2^16 — which equals 5+len(Data)
whenever len(Data) ≤ 65530 — byte 4 is Type, and bytes 5 onward are
Data. -/
theorem eap_encode_layout (c i t : Nat) (d : Attribute) :
    (NewEAPMessage c i t d).length = 5 + d.length ∧
    (NewEAPMessage c i t d).getD 0 0 = c ∧
    (NewEAPMessage c i t d).getD 1 0 = i ∧
    uint16BE ((NewEAPMessage c i t d).getD 2 0)
      ((NewEAPMessage c i t d).getD 3 0) = (5 + d.length) % 65536 ∧
    (NewEAPMessage c i t d).getD 4 0 = t ∧
    (NewEAPMessage c i t d).drop 5 = d ∧
    (d.length ≤ 65530 →
      uint16BE ((NewEAPMessage c i t d).getD 2 0)
        ((NewEAPMessage c i t d).getD 3 0) = 5 + d.length) := by
  refine ⟨?_, rfl, rfl, ?_, rfl, rfl, fun h => ?_⟩
  · simp only [NewEAPMessage, List.length_cons]; omega
  · show (d.length + 5) % 65536 / 256 * 256 + (d.length + 5) % 65536 % 256 =
      (5 + d.length) % 65536
    omega
  · show (d.length + 5) % 65536 / 256 * 256 + (d.length + 5) % 65536 % 256 =
      5 + d.length
    omega

/-- C7 (witness): applying the layout theorem at Code 1, Identifier 2,
Type 3 and one data byte. -/
theorem eap_encode_layout_witness :
    uint16BE ((NewEAPMessage 1 2 3 [7]).getD 2 0)
      ((NewEAPMessage 1 2 3 [7]).getD 3 0) = 5 + ([7] : List Nat).length :=
  (eap_encode_layout 1 2 3 [7]).2.2.2.2.2.2 (by decide)

/-- C9: for every code, identifier, type and data of length at most 65530
bytes, decoding the value built by NewEAPMessage yields exactly that code,
identifier, type and data. -/
theorem eap_encode_decode_roundtrip (c i t : Nat) (d : Attribute)
    (hd : d.length ≤ 65530) :
    Attribute.EAPMessage (NewEAPMessage c i t d) = .ok ⟨c, i, t, d⟩ := by
  have hv : (d.length + 5) % 65536 = d.length + 5 := Nat.mod_eq_of_lt (by omega)
  have henc : NewEAPMessage c i t d =
      c :: i :: ((d.length + 5) / 256) :: ((d.length + 5) % 256) :: t :: d := by
    simp only [NewEAPMessage, hv]
  rw [henc]
  exact eap_decode_cons c i _ _ t d (by show _ / 256 * 256 + _ % 256 = _; omega)

/-- C9 (witness): the encode-decode round trip at Code 1, Identifier 2,
Type 3 and data [4, 5]. -/
theorem eap_encode_decode_roundtrip_witness :
    Attribute.EAPMessage (NewEAPMessage 1 2 3 [4, 5]) = .ok ⟨1, 2, 3, [4, 5]⟩ :=
  eap_encode_decode_roundtrip 1 2 3 [4, 5] (by decide)

/-- C8: NewString and NewBytes return an error exactly for inputs longer
than 253 bytes, and for inputs of at most 253 bytes they return an
Attribute equal to the input. -/
theorem newString_newBytes_spec (s b : List Nat) :
    (NewString s = .ok s ↔ s.length ≤ 253) ∧
    ((∃ e, NewString s = .error e) ↔ 253 < s.length) ∧
    (NewBytes b = .ok b ↔ b.length ≤ 253) ∧
    ((∃ e, NewBytes b = .error e) ↔ 253 < b.length) := by
  unfold NewString NewBytes
  split_ifs with h1 h2 <;> refine ⟨?_, ?_, ?_, ?_⟩ <;> simp_all

/-- C10: NewTime errors exactly when the Unix-seconds value exceeds
2^32-1 (so times before 1970 are accepted), and every accepted time is
encoded as the value reduced modulo 2^32 in 4 big-endian bytes. -/
theorem newTime_spec (u : Int) :
    ((∃ e, NewTime u = .error e) ↔ (2 ^ 32 - 1 : Int) < u) ∧
    (∀ bs, NewTime u = .ok bs →
      bs.length = 4 ∧ fromBE32 bs = (u % (2 ^ 32 : Int)).toNat) := by
  unfold NewTime
  split_ifs with h
  · exact ⟨iff_of_true ⟨"time out of range", rfl⟩ h, fun bs hbs => by cases hbs⟩
  · refine ⟨⟨(fun ⟨e, he⟩ => by cases he), fun hlt => absurd hlt h⟩,
      fun bs hbs => ?_⟩
    have h1 : 0 ≤ u % (2 ^ 32 : Int) := Int.emod_nonneg u (by norm_num)
    have h2 : u % (2 ^ 32 : Int) < 2 ^ 32 := Int.emod_lt_of_pos u (by norm_num)
    have hv : (u % (2 ^ 32 : Int)).toNat < 2 ^ 32 := by omega
    injection hbs with hbs
    subst hbs
    refine ⟨rfl, ?_⟩
    show (((0 * 256 + _) * 256 + _) * 256 + _) * 256 + _ = _
    omega

/-- C10 (witness): the time one second before 1970 is accepted and encoded
as 2^32 - 1. -/
theorem newTime_spec_witness :
    ([255, 255, 255, 255] : List Nat).length = 4 ∧
    fromBE32 [255, 255, 255, 255] = ((-1 : Int) % (2 ^ 32 : Int)).toNat :=
  (newTime_spec (-1)).2 [255, 255, 255, 255] (by rfl)

/-- C3: for any valid Packet with its secret, decoding the bytes produced
by encoding the packet with the request authenticator yields a packet with
identical Code, Identifier and ordered attribute sequence. The digest
function is any 16-byte-output hash. -/
theorem packet_encode_parse_roundtrip (hash : List Nat → List Nat)
    (hhash : ∀ x, (hash x).length = 16) (p : Packet) (reqAuth : List Nat)
    (hp : PacketValid p) :
    ∃ bytes q, Packet.Encode hash p reqAuth = .ok bytes ∧
      Parse bytes p.secret = .ok q ∧ q.code = p.code ∧
      q.identifier = p.identifier ∧ q.attributes = p.attributes := by
  obtain ⟨hc, hi, hs, ha, hsize⟩ := hp
  have hs0 : ¬(p.secret.length = 0) := fun h => hs (List.length_eq_zero.mp h)
  have hov : ¬(4096 < 20 + (encodeAttrs p.attributes).length) := by omega
  have hmain : Parse
      (p.code :: p.identifier ::
        ((20 + (encodeAttrs p.attributes).length) / 256 % 256) ::
        ((20 + (encodeAttrs p.attributes).length) % 256) ::
        (hash ([p.code, p.identifier,
            (20 + (encodeAttrs p.attributes).length) / 256 % 256,
            (20 + (encodeAttrs p.attributes).length) % 256]
          ++ reqAuth ++ encodeAttrs p.attributes ++ p.secret)
          ++ encodeAttrs p.attributes)) p.secret =
      .ok ⟨p.code, p.identifier,
        hash ([p.code, p.identifier,
            (20 + (encodeAttrs p.attributes).length) / 256 % 256,
            (20 + (encodeAttrs p.attributes).length) % 256]
          ++ reqAuth ++ encodeAttrs p.attributes ++ p.secret),
        p.attributes, p.secret⟩ :=
    parse_header (hhash _)
      (by unfold uint16BE; omega)
      (parseAttrs_encodeAttrs p.attributes)
  refine ⟨_, _, ?_, hmain, rfl, rfl, rfl⟩
  simp only [Packet.Encode]
  rw [if_neg hs0, if_neg hov]
  rfl

/-- C3 (witness): the round trip at a concrete packet — Code 1,
Identifier 7, one attribute of type 1 with value [97], secret [115] — and
the all-zero 16-byte digest function. -/
theorem packet_encode_parse_roundtrip_witness :
    ∃ bytes q,
      Packet.Encode (fun _ => List.replicate 16 0)
        ⟨1, 7, [], [⟨1, [97]⟩], [115]⟩ (List.replicate 16 0) = .ok bytes ∧
      Parse bytes [115] = .ok q ∧ q.code = 1 ∧ q.identifier = 7 ∧
      q.attributes = [⟨1, [97]⟩] :=
  packet_encode_parse_roundtrip (fun _ => List.replicate 16 0) (fun _ => rfl)
    ⟨1, 7, [], [⟨1, [97]⟩], [115]⟩ (List.replicate 16 0)
    (by unfold PacketValid; decide)

/-- C4 (counterexample): in the per-datagram task of the first
ListenAndServe draft (server.go lines 69-87), an empty secret does not
drop the datagram: with a secret source returning the empty secret and a
well-formed 20-byte datagram, the task reaches the handler. -/
theorem task_v1_empty_secret_reaches_handler :
    handleDatagramV1 (fun _ => Except.ok []) Parse 0
      (1 :: 7 :: 0 :: 20 :: List.replicate 16 0) ≠ TaskOutcome.dropped := by
  decide

/-- C4 (amended): in the per-datagram tasks of the ListenAndServe drafts
that carry the empty-secret guard (server.go lines 218-248 and 402-432), a
secret-lookup error, an empty secret, or a parse error each drop the
datagram — the handler is not invoked and nothing is written back — and
these are the only dropping cases; the task of the first draft (lines
69-87) drops exactly on a secret-lookup error or a parse error, and an
empty secret alone does not drop the datagram. -/
theorem task_drop_characterization
    (src : Addr → Except Unit (List Nat))
    (parse : List Nat → List Nat → Except String Packet)
    (addr : Addr) (p : List Nat) :
    (handleDatagram src parse addr p = .dropped ↔
      src addr = .error () ∨
        ∃ s, src addr = .ok s ∧ (s = [] ∨ ∃ e, parse p s = .error e)) ∧
    (handleDatagramV1 src parse addr p = .dropped ↔
      src addr = .error () ∨
        ∃ s, src addr = .ok s ∧ ∃ e, parse p s = .error e) := by
  unfold handleDatagram handleDatagramV1
  rcases hsrc : src addr with e | s
  · cases e
    simp [hsrc]
  · rcases hparse : parse p s with pe | pac <;>
      by_cases hlen : s.length = 0 <;>
      simp_all [List.length_eq_zero]

/-- C5: the accept loop of ListenAndServe continues looping on a timeout
read error, returns any other read error as its result, and its terminal
result is never affected by what happens inside the per-datagram tasks: a
datagram event leaves the result unchanged, and the result is the same for
every secret-lookup and parse function. -/
theorem accept_loop_spec
    (src : Addr → Except Unit (List Nat))
    (parse : List Nat → List Nat → Except String Packet)
    (evs : List ReadEvent) (e : Nat) (addr : Addr) (p : List Nat) :
    acceptLoop src parse (.timeout :: evs) = acceptLoop src parse evs ∧
    (acceptLoop src parse (.fatal e :: evs)).1 = .failed e ∧
    (acceptLoop src parse (.datagram addr p :: evs)).1 =
      (acceptLoop src parse evs).1 ∧
    ∀ (srcB : Addr → Except Unit (List Nat))
      (parseB : List Nat → List Nat → Except String Packet),
      (acceptLoop src parse evs).1 = (acceptLoop srcB parseB evs).1 :=
  ⟨rfl, rfl, rfl,
    fun srcB parseB => acceptLoop_result_independent src srcB parse parseB evs⟩

end Radius
